import Mathlib

/-!
# Verification of the docparse extraction core

A shallow embedding of `src/app/extraction.py` (the page-range parser,
the scanned-page classifier, the table-to-markdown normalizer and the
three extraction entry points), together with theorems settling the
specification's claims about them.

Conventions of the embedding:
* Python `int` values are Lean `Int`; list indices and lengths are `Nat`.
* Python's `set` accumulation in `parse_page_range` is a duplicate-free
  `List Int` (`setAdd`/`setUpdate`); the final `sorted(pages)` is
  `List.insertionSort (· ≤ ·)`.
* A raised Python exception is an `Except.error`; a normal return is
  `Except.ok`.  `pymupdf.open` is external, so the entry points take the
  outcome of that call (`Except String Doc`) as an argument.
* Python `str.strip()` is modelled on ASCII whitespace
  (space, tab, newline, carriage return, vertical tab, form feed);
  exotic Unicode space classes are out of scope.
-/

deriving instance DecidableEq for Except

/-- ASCII whitespace as recognised by Python's `str.strip()`. -/
def isPySpace (c : Char) : Bool :=
  c = ' ' || c = '\t' || c = '\n' || c = '\x0d' || c = '\x0b' || c = '\x0c'

/-- Drop leading and trailing whitespace from a character list
(`str.strip()` at the character level). -/
def stripChars (l : List Char) : List Char :=
  ((l.dropWhile isPySpace).reverse.dropWhile isPySpace).reverse

/-- Python `s.strip()`. -/
def pyStrip (s : String) : String :=
  ⟨stripChars s.data⟩

/-- Split a character list at every occurrence of the character `c`
(Python `str.split(sep)` for a one-character separator). -/
def splitOnChar (c : Char) : List Char → List (List Char)
  | [] => [[]]
  | x :: xs =>
    match splitOnChar c xs with
    | [] => [[]]
    | y :: ys => if x = c then [] :: y :: ys else (x :: y) :: ys

/-- Python `s.split(sep)` for a one-character separator. -/
def pySplit (c : Char) (s : String) : List String :=
  (splitOnChar c s.data).map (fun l => ⟨l⟩)

/-- Digits (with Python's single-underscore-between-digits rule) after the
first digit of an integer literal: `("_"? digit)*`. -/
def digitTail : List Char → Option (List Nat)
  | [] => some []
  | '_' :: c :: rest =>
      if c.isDigit then (digitTail rest).map (fun t => (c.toNat - 48) :: t) else none
  | c :: rest =>
      if c.isDigit then (digitTail rest).map (fun t => (c.toNat - 48) :: t) else none

/-- Value of a list of decimal digits, most significant first. -/
def digitsVal (ds : List Nat) : Nat :=
  ds.foldl (fun a d => 10 * a + d) 0

/-- An unsigned Python decimal literal: `digit ("_"? digit)*`. -/
def pyUnsigned : List Char → Option Nat
  | [] => none
  | c :: rest =>
      if c.isDigit then (digitTail rest).map (fun t => digitsVal ((c.toNat - 48) :: t))
      else none

/-- Core of Python's `int(str)` on an already-stripped token:
optional sign followed by an unsigned decimal literal. -/
def pyIntCore : List Char → Option Int
  | '+' :: rest => (pyUnsigned rest).map Int.ofNat
  | '-' :: rest => (pyUnsigned rest).map (fun n => -(Int.ofNat n : Int))
  | l => (pyUnsigned l).map Int.ofNat

/-- Python's builtin `int(s)` for base 10 (it strips whitespace itself). -/
def pyInt (s : String) : Option Int :=
  pyIntCore (stripChars s.data)

/-- Python `part.split("-", 1)` when `"-" in part`: the characters before
the first dash and the characters after it. -/
def splitFirstDash : List Char → List Char × List Char
  | [] => ([], [])
  | c :: rest =>
      if c = '-' then ([], rest)
      else
        let p := splitFirstDash rest
        (c :: p.1, p.2)

/-- Python `range(a, b)` as a list of integers. -/
def pyRange (a b : Int) : List Int :=
  (List.range (b - a).toNat).map (fun k => a + Int.ofNat k)

/-- `set.add`: append an element unless it is already present. -/
def setAdd (s : List Int) (n : Int) : List Int :=
  if n ∈ s then s else s ++ [n]

/-- `set.update`: add every element of `new` to the set `s`. -/
def setUpdate (s : List Int) (new : List Int) : List Int :=
  new.foldl setAdd s

/-- The message `int()` raises for a non-numeric token
(`ValueError: invalid literal for int() ...`), the spec's `InvalidRangeError`. -/
def invalidIntMsg (tok : String) : String :=
  "invalid literal for int() with base 10: " ++ tok

/-- One loop iteration of `parse_page_range` (`extraction.py:36-46`): the
page indices a single comma-separated clause contributes, or the
`ValueError` raised on a non-numeric token.  A `start-end` clause
contributes `range(max(0, start), min(total_pages - 1, end) + 1)`; a single
integer contributes itself when it lies in `[0, total_pages)`. -/
def clausePages (total_pages : Int) (rawPart : String) : Except String (List Int) :=
  let part := pyStrip rawPart
  if part.data.contains '-' then
    let p := splitFirstDash part.data
    let sTok := pyStrip ⟨p.1⟩
    let eTok := pyStrip ⟨p.2⟩
    match pyInt sTok with
    | none => .error (invalidIntMsg sTok)
    | some a =>
      match pyInt eTok with
      | none => .error (invalidIntMsg eTok)
      | some b => .ok (pyRange (max 0 a) (min (total_pages - 1) b + 1))
  else
    match pyInt part with
    | none => .error (invalidIntMsg part)
    | some n => if 0 ≤ n ∧ n < total_pages then .ok [n] else .ok []

/-- `parse_page_range` (`extraction.py:22-48`).  `None` yields all pages;
otherwise the comma-separated clauses are accumulated into a set and the
sorted set is returned.  A `ValueError` from `int()` propagates. -/
def parse_page_range (page_range : Option String) (total_pages : Int) :
    Except String (List Int) :=
  match page_range with
  | none => .ok ((List.range total_pages.toNat).map Int.ofNat)
  | some s => do
    let pages ← (pySplit ',' s).foldlM
      (fun (acc : List Int) part => do
        let c ← clausePages total_pages part
        pure (setUpdate acc c))
      ([] : List Int)
    pure (pages.insertionSort (· ≤ ·))

/-- Python `str(cell) if cell is not None else ""` for a table cell
(`pymupdf`'s `Table.extract` yields strings or `None`). -/
def pyStr : Option String → String
  | none => ""
  | some s => s

/-- Python `val.replace("\n", " ")`: each newline becomes one space. -/
def pyReplaceNL (s : String) : String :=
  ⟨s.data.map (fun ch => if ch = '\n' then ' ' else ch)⟩

/-- Cell cleaning in `_table_to_markdown` (`extraction.py:133-135`):
stringify (`None` to empty), replace newlines with spaces, strip. -/
def cleanCell (c : Option String) : String :=
  pyStrip (pyReplaceNL (pyStr c))

/-- Python `sep.join(parts)`. -/
def pyJoin (sep : String) : List String → String
  | [] => ""
  | [s] => s
  | s :: rest => s ++ sep ++ pyJoin sep rest

/-- One markdown table line: `"| " + " | ".join(row) + " |"`. -/
def renderRow (row : List String) : String :=
  "| " ++ pyJoin " | " row ++ " |"

/-- Right-pad a row with empty-string cells up to `n` columns
(the `while len(row) < num_cols: row.append("")` loop). -/
def padRow (n : Nat) (r : List String) : List String :=
  r ++ List.replicate (n - r.length) ""

/-- `_table_to_markdown` (`extraction.py:123-161`). -/
def _table_to_markdown (data : List (List (Option String))) : String :=
  if data.isEmpty || data.length == 0 then ""
  else
    let rows := data.map (fun row => row.map cleanCell)
    if rows.length == 0 then ""
    else
      let num_cols := (rows.map List.length).foldl Nat.max 0
      let padded := rows.map (padRow num_cols)
      let lines := renderRow (padded.headD []) ::
        renderRow (List.replicate num_cols "---") ::
        (padded.drop 1).map renderRow
      pyJoin "\n" lines

/-- A raw image tuple from `page.get_images(full=True)`; only the entries
at positions 0, 2, 3 and 5 (`xref`, `width`, `height`, `colorspace`) are
consumed by the core.  `get_images(full=False)` is the same list (only its
length is ever used). -/
structure RawImage where
  xref : Int
  smask : Int
  width : Int
  height : Int
  bpc : Int
  colorspace : String
deriving DecidableEq, Inhabited

/-- The per-image dict built by `_extract_page_images`. -/
structure ImageMeta where
  index : Nat
  xref : Int
  width : Int
  height : Int
  colorspace : String
deriving DecidableEq, Inhabited

/-- `_extract_page_images` (`extraction.py:164-182`). -/
def _extract_page_images (imgs : List RawImage) : List ImageMeta :=
  imgs.enum.map (fun it =>
    { index := it.1, xref := it.2.xref, width := it.2.width,
      height := it.2.height, colorspace := it.2.colorspace })

/-- A raw table handle from `page.find_tables()`: its bounding box and the
cell grid returned by `Table.extract()`. -/
structure RawTable where
  bbox : List Rat
  cells : List (List (Option String))
deriving DecidableEq, Inhabited

/-- The per-table dict built by `_extract_page_tables`; `page_number` is
the key added later by `extract_tables_only`. -/
structure TableRecord where
  table_index : Nat
  bbox : List Rat
  rows : Nat
  cols : Nat
  data : List (List (Option String))
  page_number : Option Int
deriving DecidableEq, Inhabited

/-- One iteration of the `for i, table in enumerate(tables)` loop of
`_extract_page_tables` (`extraction.py:97-116`): skip an empty grid,
otherwise append the dict and (when non-empty) the markdown rendering. -/
def tableStep (acc : List TableRecord × List String) (it : Nat × RawTable) :
    List TableRecord × List String :=
  let i := it.1
  let extracted := it.2.cells
  if extracted.isEmpty || extracted.length == 0 then acc
  else
    let record : TableRecord :=
      { table_index := i, bbox := it.2.bbox, rows := extracted.length,
        cols := (extracted.headD []).length, data := extracted,
        page_number := none }
    let md := _table_to_markdown extracted
    (acc.1 ++ [record], if md = "" then acc.2 else acc.2 ++ [md])

/-- `_extract_page_tables` (`extraction.py:84-120`), as the pure loop over
the raw tables the external engine found on the page.  (The `try/except`
around the engine's own table discovery is outside the embedding.) -/
def _extract_page_tables (tables : List RawTable) : List TableRecord × List String :=
  tables.enum.foldl tableStep ([], [])

/-- The dict `_extract_page_tables` builds for the `i`-th non-empty grid
(`extraction.py:104-110`). -/
def tableRecOf (it : Nat × RawTable) : TableRecord :=
  { table_index := it.1, bbox := it.2.bbox, rows := it.2.cells.length,
    cols := (it.2.cells.headD []).length, data := it.2.cells,
    page_number := none }

/-- A text block tuple from `page.get_text("blocks")`; only entry 6
(the block type, `0` for text) is consumed. -/
structure Block where
  btype : Int
deriving DecidableEq, Inhabited

/-- The per-page primitives the external engine hands to the core:
`get_text` under each mode, `get_images`, `get_text("blocks")` and
`find_tables()[i].extract()`. -/
structure PageData where
  textLayout : String
  textPlain : String
  images : List RawImage
  blocks : List Block
  rawTables : List RawTable
deriving DecidableEq, Inhabited

/-- An opened document: its pages, in order (`total_pages = len(doc)`). -/
abbrev Doc := List PageData

/-- `_extract_page_text` (`extraction.py:68-81`): pick the layout-aware or
the plain text the engine produced for the page. -/
def _extract_page_text (page : PageData) (layout_mode : Bool) : String :=
  if layout_mode then page.textLayout else page.textPlain

/-- `_detect_scanned_page` (`extraction.py:51-65`). -/
def _detect_scanned_page (page : PageData) (text : String) : Bool :=
  let images := page.images
  let text_stripped := pyStrip text
  if images.length > 0 && text_stripped.length < 20 then true else false

/-- `PageResult` (`models.py:17-25`). -/
structure PageResult where
  page_number : Int
  text : String
  tables : List TableRecord
  tables_markdown : List String
  images : List ImageMeta
  is_scanned : Bool
  text_block_count : Int
deriving DecidableEq, Inhabited

/-- `ExtractionResponse` (`models.py:28-37`). -/
structure ExtractionResponse where
  success : Bool
  filename : String
  total_pages : Int
  pages : List PageResult
  full_text : String
  full_text_with_tables : String
  scanned_page_count : Int
  error : Option String
deriving DecidableEq, Inhabited

/-- `TextExtractionResponse` (`models.py:40-47`). -/
structure TextExtractionResponse where
  success : Bool
  filename : String
  total_pages : Int
  text : String
  scanned_page_count : Int
  error : Option String
deriving DecidableEq, Inhabited

/-- `TableExtractionResponse` (`models.py:50-57`). -/
structure TableExtractionResponse where
  success : Bool
  filename : String
  total_pages : Int
  tables : List TableRecord
  tables_markdown : List String
  error : Option String
deriving DecidableEq, Inhabited

/-- `extract_full` (`extraction.py:185-277`).  `openResult` is the outcome
of the external `pymupdf.open` call on the supplied bytes; an exception
raised later (the `ValueError` of `parse_page_range`) is an
`Except.error` of the whole call. -/
def extract_full (openResult : Except String Doc) (filename : String)
    (extract_tables : Bool) (extract_images : Bool) (layout_mode : Bool)
    (page_range : Option String) : Except String ExtractionResponse :=
  match openResult with
  | .error e =>
    .ok { success := false, filename := filename, total_pages := 0, pages := [],
          full_text := "", full_text_with_tables := "",
          scanned_page_count := 0, error := some ("Failed to open PDF: " ++ e) }
  | .ok doc => do
    let total_pages : Int := Int.ofNat doc.length
    let page_indices ← parse_page_range page_range total_pages
    let st := page_indices.foldl
      (fun (st : List PageResult × List String × List String × Int) page_num =>
        let page := doc.getD page_num.toNat default
        let text := _extract_page_text page layout_mode
        let scanned := _detect_scanned_page page text
        let scanned_count := if scanned then st.2.2.2 + 1 else st.2.2.2
        let text_block_count : Int :=
          Int.ofNat (page.blocks.filter (fun b => b.btype == 0)).length
        let td := if extract_tables then _extract_page_tables page.rawTables else ([], [])
        let image_meta := if extract_images then _extract_page_images page.images else []
        let page_result : PageResult :=
          { page_number := page_num, text := text, tables := td.1,
            tables_markdown := td.2, images := image_meta,
            is_scanned := scanned, text_block_count := text_block_count }
        let page_text_with_tables :=
          if td.2.isEmpty then text else text ++ "\n\n" ++ pyJoin "\n\n" td.2
        (st.1 ++ [page_result], st.2.1 ++ [text],
         st.2.2.1 ++ [page_text_with_tables], scanned_count))
      ([], [], [], 0)
    pure { success := true, filename := filename, total_pages := total_pages,
           pages := st.1, full_text := pyStrip (pyJoin "\n" st.2.1),
           full_text_with_tables := pyStrip (pyJoin "\n" st.2.2.1),
           scanned_page_count := st.2.2.2, error := none }

/-- `extract_text_only` (`extraction.py:280-321`). -/
def extract_text_only (openResult : Except String Doc) (filename : String)
    (layout_mode : Bool) (page_range : Option String) :
    Except String TextExtractionResponse :=
  match openResult with
  | .error e =>
    .ok { success := false, filename := filename, total_pages := 0, text := "",
          scanned_page_count := 0, error := some ("Failed to open PDF: " ++ e) }
  | .ok doc => do
    let total_pages : Int := Int.ofNat doc.length
    let page_indices ← parse_page_range page_range total_pages
    let st := page_indices.foldl
      (fun (st : List String × Int) page_num =>
        let page := doc.getD page_num.toNat default
        let text := _extract_page_text page layout_mode
        let scanned_count := if _detect_scanned_page page text then st.2 + 1 else st.2
        (st.1 ++ [text], scanned_count))
      ([], 0)
    pure { success := true, filename := filename, total_pages := total_pages,
           text := pyStrip (pyJoin "\n" st.1), scanned_page_count := st.2,
           error := none }

/-- `extract_tables_only` (`extraction.py:324-367`). -/
def extract_tables_only (openResult : Except String Doc) (filename : String)
    (page_range : Option String) : Except String TableExtractionResponse :=
  match openResult with
  | .error e =>
    .ok { success := false, filename := filename, total_pages := 0, tables := [],
          tables_markdown := [], error := some ("Failed to open PDF: " ++ e) }
  | .ok doc => do
    let total_pages : Int := Int.ofNat doc.length
    let page_indices ← parse_page_range page_range total_pages
    let st := page_indices.foldl
      (fun (st : List TableRecord × List String) page_num =>
        let page := doc.getD page_num.toNat default
        let td := _extract_page_tables page.rawTables
        (st.1 ++ td.1.map (fun t => { t with page_number := some page_num }),
         st.2 ++ td.2))
      ([], [])
    pure { success := true, filename := filename, total_pages := total_pages,
           tables := st.1, tables_markdown := st.2, error := none }

/-- Whether a page-range clause is well formed: every token that
`parse_page_range` would hand to `int()` parses as an integer. -/
def wellFormedClause (rawPart : String) : Bool :=
  let part := pyStrip rawPart
  if part.data.contains '-' then
    let p := splitFirstDash part.data
    (pyInt (pyStrip ⟨p.1⟩)).isSome && (pyInt (pyStrip ⟨p.2⟩)).isSome
  else
    (pyInt part).isSome

/-- The clause semantics stated by §4.1 of the spec, written from its
words: a `start-end` pair contributes the inclusive range after clamping
`start` to `max(0, start)` and `end` to `min(total_pages - 1, end)` —
nothing, without error, when the clamped start exceeds the clamped end —
and a single integer `n` contributes `n` iff `0 ≤ n < total_pages`. -/
def clauseContribSpec (tp : Int) (clause : String) : List Int :=
  let c := pyStrip clause
  if c.data.contains '-' then
    let p := splitFirstDash c.data
    match pyInt (pyStrip ⟨p.1⟩), pyInt (pyStrip ⟨p.2⟩) with
    | some s0, some e0 =>
      let start := max 0 s0
      let stop := min (tp - 1) e0
      if stop < start then [] else pyRange start (stop + 1)
    | _, _ => []
  else
    match pyInt c with
    | some n => if 0 ≤ n ∧ n < tp then [n] else []
    | none => []

/-- Join a list of character lists with a separator (the character-level
shadow of `pyJoin`, used to reason about the rendered markdown). -/
def joinC (sep : List Char) : List (List Char) → List Char
  | [] => []
  | [x] => x
  | x :: rest => x ++ sep ++ joinC sep rest

/-- The cell grid after the stringification/cleaning pass of
`_table_to_markdown`. -/
def cleanedRows (g : List (List (Option String))) : List (List String) :=
  g.map (fun row => row.map cleanCell)

/-- The maximum row length of a grid (`max(len(row) for row in rows)`,
with `0` for an empty grid). -/
def maxRowLen (g : List (List α)) : Nat :=
  (g.map List.length).foldl Nat.max 0

/-- The cleaned grid right-padded to its maximum row length — the rows
`_table_to_markdown` actually renders. -/
def paddedRows (g : List (List (Option String))) : List (List String) :=
  (cleanedRows g).map (padRow (maxRowLen (cleanedRows g)))

/-- The lines of the rendered markdown table of a non-empty grid: header
row, `---` separator (one per column), then the remaining rows. -/
def mdLines (g : List (List (Option String))) : List String :=
  renderRow ((paddedRows g).headD []) ::
    renderRow (List.replicate (maxRowLen (cleanedRows g)) "---") ::
    ((paddedRows g).drop 1).map renderRow

/-- Modelled from the spec: re-parsing "the pipe-delimited cells" of one
rendered markdown line (§8's round-trip property; no such parser exists in
`src/`).  Split at every pipe, discard the outer empty segments, and peel
the single-space padding off each cell. -/
def parseLineCells (line : String) : List String :=
  (((splitOnChar '|' line.data).drop 1).dropLast).map
    (fun seg => ⟨(seg.drop 1).dropLast⟩)

/-- Modelled from the spec: re-parsing "the pipe-delimited cells of each
non-separator line" of a rendered markdown table (§8's round-trip
property; no such parser exists in `src/`).  The second line is the
separator row and is dropped. -/
def parseMarkdownCells (md : String) : List (List String) :=
  match splitOnChar '\n' md.data with
  | header :: _sep :: rest => (header :: rest).map (fun l => parseLineCells ⟨l⟩)
  | lines => lines.map (fun l => parseLineCells ⟨l⟩)

/-- A page with no images and no text (concrete test page). -/
def noImagePage : PageData :=
  { textLayout := "", textPlain := "", images := [], blocks := [], rawTables := [] }

/-- A page carrying exactly one embedded image (concrete test page). -/
def oneImagePage : PageData :=
  { noImagePage with
    images := [{ xref := 7, smask := 0, width := 100, height := 100, bpc := 8,
                 colorspace := "DeviceRGB" }] }

/-! ## Concrete evaluation checks -/

example : parse_page_range (some "0-5") 10 = .ok [0, 1, 2, 3, 4, 5] := by decide
example : parse_page_range (some "0,2,4") 10 = .ok [0, 2, 4] := by decide
example : parse_page_range (some "0-2,5,7-9") 10 = .ok [0, 1, 2, 5, 7, 8, 9] := by decide
example : parse_page_range (some "3-1") 10 = .ok [] := by decide
example : parse_page_range (some "100") 10 = .ok [] := by decide
example : parse_page_range (some "abc") 10 = .error (invalidIntMsg "abc") := by decide
example : parse_page_range none 3 = .ok [0, 1, 2] := by decide
example : parse_page_range (some "") 3 = .error (invalidIntMsg "") := by decide
example : parse_page_range (some " 1 - 2 ,4") 10 = .ok [1, 2, 4] := by decide
example : parse_page_range (some "0-5") 0 = .ok [] := by decide
example : parse_page_range (some "4,1-2,2-3") 10 = .ok [1, 2, 3, 4] := by decide
example : pySplit ',' "a,b,," = ["a", "b", "", ""] := by decide
example : pyInt "1_0" = some 10 := by decide
example : pyInt "1__0" = none := by decide
example : pyInt " -12 " = some (-12) := by decide
example : pyInt "_1" = none := by decide

example : _table_to_markdown [[some "a", some "b"], [some "c"]] =
    "| a | b |\n| --- | --- |\n| c |  |" := by decide
example : _table_to_markdown [] = "" := by decide
example : _table_to_markdown [[]] = "|  |\n|  |" := by decide
example : _table_to_markdown [[some " x\ny ", none]] =
    "| x y |  |\n| --- | --- |" := by decide

example : parseMarkdownCells (_table_to_markdown [[some "a", some "b"], [some "c"]]) =
    [["a", "b"], ["c", ""]] := by decide
example : parseMarkdownCells (_table_to_markdown [[some "a | b"]]) = [["a", "b"]] := by decide
example : clauseContribSpec 10 " 7-9" = [7, 8, 9] := by decide
example : wellFormedClause "7-9" = true := by decide
example : wellFormedClause "x" = false := by decide

example : (_extract_page_tables [{ bbox := [], cells := [[]] }]).2 =
    ["|  |\n|  |"] := by decide

/-! ## Supporting lemmas -/

theorem data_append (s t : String) : (s ++ t).data = s.data ++ t.data :=
  rfl

theorem string_eta (s : String) : (⟨s.data⟩ : String) = s :=
  rfl

theorem string_mk_inj {l m : List Char} (h : (⟨l⟩ : String) = ⟨m⟩) : l = m := by
  cases h
  rfl

theorem pyJoin_data (sep : String) :
    ∀ l : List String, (pyJoin sep l).data = joinC sep.data (l.map String.data)
  | [] => rfl
  | [x] => rfl
  | x :: y :: t => by
    simp only [pyJoin, joinC, List.map_cons, data_append]
    rw [pyJoin_data sep (y :: t)]
    simp [joinC]

theorem not_mem_joinC {c : Char} {sep : List Char} (hsep : c ∉ sep) :
    ∀ {ls : List (List Char)}, (∀ x ∈ ls, c ∉ x) → c ∉ joinC sep ls
  | [], _ => by simp [joinC]
  | [x], h => by simpa [joinC] using h x (by simp)
  | x :: y :: t, h => by
    have hx : c ∉ x := h x (by simp)
    have ht : c ∉ joinC sep (y :: t) :=
      not_mem_joinC hsep (fun z hz => h z (List.mem_cons_of_mem _ hz))
    simp [joinC, List.mem_append, hx, hsep, ht]

theorem splitOnChar_ne_nil (c : Char) (l : List Char) : splitOnChar c l ≠ [] := by
  cases l with
  | nil => simp [splitOnChar]
  | cons x xs =>
    simp only [splitOnChar]
    cases splitOnChar c xs with
    | nil => simp
    | cons y ys =>
      by_cases h : x = c <;> simp [h]

theorem splitOnChar_of_not_mem {c : Char} :
    ∀ {l : List Char}, c ∉ l → splitOnChar c l = [l]
  | [], _ => rfl
  | x :: xs, h => by
    have hx : x ≠ c := fun he => h (by simp [he])
    have hxs : c ∉ xs := fun hm => h (List.mem_cons_of_mem _ hm)
    simp [splitOnChar, splitOnChar_of_not_mem hxs, hx]

theorem splitOnChar_cons_self (c : Char) (l : List Char) :
    splitOnChar c (c :: l) = [] :: splitOnChar c l := by
  simp only [splitOnChar]
  cases h : splitOnChar c l with
  | nil => exact absurd h (splitOnChar_ne_nil c l)
  | cons y ys => simp

theorem splitOnChar_append {c : Char} :
    ∀ {l₁ : List Char} (l₂ : List Char), c ∉ l₁ →
      splitOnChar c (l₁ ++ c :: l₂) = l₁ :: splitOnChar c l₂
  | [], l₂, _ => by simpa using splitOnChar_cons_self c l₂
  | x :: xs, l₂, h => by
    have hx : x ≠ c := fun he => h (by simp [he])
    have hxs : c ∉ xs := fun hm => h (List.mem_cons_of_mem _ hm)
    have ih := splitOnChar_append l₂ hxs
    simp only [List.cons_append, splitOnChar]
    rw [show xs.append (c :: l₂) = xs ++ c :: l₂ from rfl, ih]
    simp [hx]

theorem splitOnChar_joinC {c : Char} :
    ∀ {ls : List (List Char)}, ls ≠ [] → (∀ x ∈ ls, c ∉ x) →
      splitOnChar c (joinC [c] ls) = ls
  | [x], _, h => by
    simpa [joinC] using splitOnChar_of_not_mem (h x (by simp))
  | x :: y :: t, _, h => by
    have hx : c ∉ x := h x (by simp)
    have ih := splitOnChar_joinC (show y :: t ≠ [] by simp)
      (fun z hz => h z (List.mem_cons_of_mem _ hz))
    have harr : joinC [c] (x :: y :: t) = x ++ c :: joinC [c] (y :: t) := by
      simp [joinC]
    rw [harr, splitOnChar_append _ hx, ih]

theorem mem_of_mem_stripChars {a : Char} {l : List Char} (h : a ∈ stripChars l) :
    a ∈ l := by
  unfold stripChars at h
  rw [List.mem_reverse] at h
  have h1 := (List.dropWhile_sublist (l := (l.dropWhile isPySpace).reverse)
    (p := isPySpace)).mem h
  rw [List.mem_reverse] at h1
  exact (List.dropWhile_sublist (l := l) (p := isPySpace)).mem h1

theorem cleanCell_no_newline (x : Option String) : '\n' ∉ (cleanCell x).data := by
  intro h
  have h1 : '\n' ∈ (pyReplaceNL (pyStr x)).data := mem_of_mem_stripChars h
  unfold pyReplaceNL at h1
  simp only [List.mem_map] at h1
  obtain ⟨b, _, hb⟩ := h1
  by_cases hbn : b = '\n'
  · rw [if_pos hbn] at hb
    exact absurd hb (by decide)
  · rw [if_neg hbn] at hb
    exact hbn hb

theorem renderRow_data (row : List String) :
    (renderRow row).data =
      '|' :: ' ' :: (joinC [' ', '|', ' '] (row.map String.data) ++ [' ', '|']) := by
  unfold renderRow
  rw [data_append, data_append, pyJoin_data]
  rfl

theorem newline_not_mem_renderRow {row : List String}
    (h : ∀ x ∈ row, '\n' ∉ x.data) : '\n' ∉ (renderRow row).data := by
  rw [renderRow_data]
  intro hm
  simp only [List.mem_cons, List.mem_append] at hm
  rcases hm with h1 | h1 | h1 | h1
  · exact absurd h1 (by decide)
  · exact absurd h1 (by decide)
  · exact not_mem_joinC (by decide) (by simpa using h) h1
  · simp at h1

theorem pyJoin_cons_data (sep : String) (x : String) (xs : List String) :
    ∃ r, (pyJoin sep (x :: xs)).data = x.data ++ r := by
  cases xs with
  | nil => exact ⟨[], by simp [pyJoin]⟩
  | cons y t =>
    refine ⟨sep.data ++ (pyJoin sep (y :: t)).data, ?_⟩
    show (x ++ sep ++ pyJoin sep (y :: t)).data = _
    rw [data_append, data_append, List.append_assoc]

theorem table_to_markdown_ne_empty {g : List (List (Option String))} (hg : g ≠ []) :
    _table_to_markdown g ≠ "" := by
  intro h
  have hdata : (_table_to_markdown g).data = [] := by rw [h]
  cases g with
  | nil => exact hg rfl
  | cons r rs =>
    unfold _table_to_markdown at hdata
    simp only [List.isEmpty_cons, Bool.false_or, List.length_cons] at hdata
    rw [if_neg (by simp)] at hdata
    rw [if_neg (by simp)] at hdata
    obtain ⟨tail, htail⟩ := pyJoin_cons_data "\n" _ _
    rw [htail] at hdata
    rw [renderRow_data] at hdata
    simp at hdata

theorem le_foldl_max : ∀ (l : List Nat) (a : Nat), a ≤ l.foldl Nat.max a
  | [], _ => le_refl _
  | x :: xs, a => le_trans (Nat.le_max_left a x) (le_foldl_max xs (Nat.max a x))

theorem mem_le_foldl_max : ∀ {l : List Nat} {x : Nat}, x ∈ l →
    ∀ a, x ≤ l.foldl Nat.max a := by
  intro l
  induction l with
  | nil => intro x hx; cases hx
  | cons y ys ih =>
    intro x hx a
    rcases List.mem_cons.mp hx with h | h
    · subst h
      exact le_trans (Nat.le_max_right a x) (le_foldl_max ys (Nat.max a x))
    · exact ih h (Nat.max a y)

theorem foldl_max_le : ∀ {l : List Nat} {b : Nat}, (∀ x ∈ l, x ≤ b) →
    ∀ a, a ≤ b → l.foldl Nat.max a ≤ b := by
  intro l
  induction l with
  | nil => intro b _ a ha; exact ha
  | cons y ys ih =>
    intro b h a ha
    exact ih (fun x hx => h x (List.mem_cons_of_mem _ hx))
      (Nat.max a y) (Nat.max_le.mpr ⟨ha, h y (by simp)⟩)

theorem length_le_maxRowLen {g : List (List α)} {row : List α} (h : row ∈ g) :
    row.length ≤ maxRowLen g :=
  mem_le_foldl_max (List.mem_map_of_mem List.length h) 0

theorem maxRowLen_le {g : List (List α)} {b : Nat}
    (h : ∀ row ∈ g, row.length ≤ b) : maxRowLen g ≤ b := by
  refine foldl_max_le ?_ 0 (Nat.zero_le b)
  intro x hx
  obtain ⟨row, hrow, rfl⟩ := List.mem_map.mp hx
  exact h row hrow

theorem headD_mem {l : List α} (h : l ≠ []) (d : α) : l.headD d ∈ l := by
  cases l with
  | nil => exact absurd rfl h
  | cons x xs => simp

theorem maxRowLen_eq_head {g : List (List α)} (hg : g ≠ [])
    (h : ∀ row ∈ g, row.length ≤ (g.headD []).length) :
    maxRowLen g = (g.headD []).length :=
  le_antisymm (maxRowLen_le h) (length_le_maxRowLen (headD_mem hg []))

theorem maxRowLen_eq_of_all {g : List (List α)} {c : Nat} (hg : g ≠ [])
    (h : ∀ row ∈ g, row.length = c) : maxRowLen g = c := by
  refine le_antisymm (maxRowLen_le (fun row hr => le_of_eq (h row hr))) ?_
  have hh := length_le_maxRowLen (headD_mem hg ([] : List α))
  rw [h _ (headD_mem hg [])] at hh
  exact hh

theorem maxRowLen_cleanedRows (g : List (List (Option String))) :
    maxRowLen (cleanedRows g) = maxRowLen g := by
  unfold maxRowLen cleanedRows
  rw [List.map_map]
  congr 1
  apply List.map_congr_left
  intro row _
  simp

theorem padRow_of_length_eq {r : List String} {n : Nat} (h : r.length = n) :
    padRow n r = r := by
  unfold padRow
  rw [h]
  simp

theorem length_padRow {r : List String} {n : Nat} (h : r.length ≤ n) :
    (padRow n r).length = n := by
  unfold padRow
  rw [List.length_append, List.length_replicate]
  omega

theorem table_to_markdown_eq {g : List (List (Option String))} (hg : g ≠ []) :
    _table_to_markdown g = pyJoin "\n" (mdLines g) := by
  cases g with
  | nil => exact absurd rfl hg
  | cons r rs => rfl

theorem padded_cell_no_newline {g : List (List (Option String))} :
    ∀ r ∈ paddedRows g, ∀ x ∈ r, '\n' ∉ x.data := by
  intro r hr x hx
  obtain ⟨cr, hcr, rfl⟩ := List.mem_map.mp hr
  obtain ⟨row, _, rfl⟩ := List.mem_map.mp hcr
  unfold padRow at hx
  rcases List.mem_append.mp hx with h | h
  · obtain ⟨cell, _, rfl⟩ := List.mem_map.mp h
    exact cleanCell_no_newline cell
  · rw [List.eq_of_mem_replicate h]
    simp

theorem mdLines_no_newline {g : List (List (Option String))} :
    ∀ line ∈ mdLines g, '\n' ∉ line.data := by
  intro line hline
  unfold mdLines at hline
  rcases List.mem_cons.mp hline with h | h
  · subst h
    refine newline_not_mem_renderRow ?_
    intro x hx
    rcases List.eq_nil_or_concat (paddedRows g) with hp | _
    · rw [hp] at hx
      simp at hx
    · exact padded_cell_no_newline _ (headD_mem (by
        intro hnil
        rw [hnil] at hx
        simp at hx) []) x hx
  · rcases List.mem_cons.mp h with h2 | h2
    · subst h2
      refine newline_not_mem_renderRow ?_
      intro x hx
      rw [List.eq_of_mem_replicate hx]
      simp
    · obtain ⟨r, hr, rfl⟩ := List.mem_map.mp h2
      exact newline_not_mem_renderRow
        (padded_cell_no_newline r (List.mem_of_mem_drop hr))

theorem splitOnChar_markdown {g : List (List (Option String))} (hg : g ≠ []) :
    splitOnChar '\n' (_table_to_markdown g).data = (mdLines g).map String.data := by
  rw [table_to_markdown_eq hg, pyJoin_data]
  refine splitOnChar_joinC (by simp [mdLines]) ?_
  intro x hx
  obtain ⟨line, hline, rfl⟩ := List.mem_map.mp hx
  exact mdLines_no_newline line hline

theorem splitMid :
    ∀ {cells : List (List Char)}, cells ≠ [] → (∀ x ∈ cells, '|' ∉ x) →
      splitOnChar '|' (' ' :: (joinC [' ', '|', ' '] cells ++ [' ', '|'])) =
        cells.map (fun cl => ' ' :: cl ++ [' ']) ++ [[]]
  | [x], _, h => by
    have hx : '|' ∉ x := h x (by simp)
    have hmid : '|' ∉ ' ' :: x ++ [' '] := by
      intro hm
      rcases List.mem_cons.mp hm with h1 | h1
      · exact absurd h1 (by decide)
      · rcases List.mem_append.mp h1 with h2 | h2
        · exact hx h2
        · simp at h2
    have harr : ' ' :: (joinC [' ', '|', ' '] [x] ++ [' ', '|']) =
        (' ' :: x ++ [' ']) ++ '|' :: [] := by
      simp [joinC]
    rw [harr, splitOnChar_append [] hmid]
    rfl
  | x :: y :: t, _, h => by
    have hx : '|' ∉ x := h x (by simp)
    have hmid : '|' ∉ ' ' :: x ++ [' '] := by
      intro hm
      rcases List.mem_cons.mp hm with h1 | h1
      · exact absurd h1 (by decide)
      · rcases List.mem_append.mp h1 with h2 | h2
        · exact hx h2
        · simp at h2
    have ih := splitMid (show y :: t ≠ [] by simp)
      (fun z hz => h z (List.mem_cons_of_mem _ hz))
    have harr : ' ' :: (joinC [' ', '|', ' '] (x :: y :: t) ++ [' ', '|']) =
        (' ' :: x ++ [' ']) ++ '|' ::
          (' ' :: (joinC [' ', '|', ' '] (y :: t) ++ [' ', '|'])) := by
      simp [joinC]
    rw [harr, splitOnChar_append _ hmid, ih]
    simp

theorem parseLineCells_renderRow {row : List String} (hrow : row ≠ [])
    (hp : ∀ x ∈ row, '|' ∉ x.data) : parseLineCells (renderRow row) = row := by
  unfold parseLineCells
  rw [renderRow_data, splitOnChar_cons_self,
    splitMid (by simpa using hrow)
      (by intro x hx; obtain ⟨s, hs, rfl⟩ := List.mem_map.mp hx; exact hp s hs)]
  rw [List.drop_succ_cons, List.drop_zero, List.dropLast_concat, List.map_map,
    List.map_map]
  conv =>
    rhs
    rw [← List.map_id row]
  apply List.map_congr_left
  intro x _
  show (⟨((' ' :: x.data ++ [' ']).drop 1).dropLast⟩ : String) = x
  have h1 : (' ' :: x.data ++ [' ']).drop 1 = x.data ++ [' '] := rfl
  rw [h1, List.dropLast_concat]

theorem mem_setAdd {s : List Int} {n x : Int} : x ∈ setAdd s n ↔ x ∈ s ∨ x = n := by
  unfold setAdd
  by_cases h : n ∈ s
  · rw [if_pos h]
    constructor
    · exact Or.inl
    · rintro (h1 | rfl)
      · exact h1
      · exact h
  · rw [if_neg h]
    simp

theorem nodup_setAdd {s : List Int} {n : Int} (h : s.Nodup) : (setAdd s n).Nodup := by
  unfold setAdd
  by_cases hn : n ∈ s
  · rwa [if_pos hn]
  · rw [if_neg hn]
    simp [List.nodup_append, h, hn]

theorem mem_setUpdate {x : Int} :
    ∀ {new : List Int} {s : List Int}, x ∈ setUpdate s new ↔ x ∈ s ∨ x ∈ new := by
  intro new
  induction new with
  | nil => intro s; simp [setUpdate]
  | cons m t ih =>
    intro s
    show x ∈ setUpdate (setAdd s m) t ↔ _
    rw [ih, mem_setAdd]
    simp only [List.mem_cons]
    tauto

theorem nodup_setUpdate :
    ∀ {new : List Int} {s : List Int}, s.Nodup → (setUpdate s new).Nodup := by
  intro new
  induction new with
  | nil => intro s h; exact h
  | cons m t ih => intro s h; exact ih (nodup_setAdd h)

theorem pyRange_nil {a b : Int} (h : b ≤ a) : pyRange a b = [] := by
  unfold pyRange
  rw [show (b - a).toNat = 0 by omega]
  rfl

theorem mem_pyRange {a b x : Int} : x ∈ pyRange a b ↔ a ≤ x ∧ x < b := by
  unfold pyRange
  simp only [List.mem_map, List.mem_range, Int.ofNat_eq_natCast]
  constructor
  · rintro ⟨k, hk, rfl⟩
    omega
  · rintro ⟨h1, h2⟩
    exact ⟨(x - a).toNat, by omega, by omega⟩

theorem clausePages_err_of_not_wf {part : String}
    (h : wellFormedClause part = false) :
    ∃ msg, ∀ tp : Int, clausePages tp part = .error msg := by
  unfold wellFormedClause at h
  by_cases hc : (pyStrip part).data.contains '-'
  · rw [if_pos hc] at h
    rw [Bool.and_eq_false_iff] at h
    cases hs : pyInt (pyStrip ⟨(splitFirstDash (pyStrip part).data).1⟩) with
    | none =>
      refine ⟨invalidIntMsg (pyStrip ⟨(splitFirstDash (pyStrip part).data).1⟩), ?_⟩
      intro tp
      simp only [clausePages]
      rw [if_pos hc, hs]
    | some a =>
      have he : pyInt (pyStrip ⟨(splitFirstDash (pyStrip part).data).2⟩) = none := by
        rcases h with h1 | h1
        · rw [hs] at h1
          simp at h1
        · exact Option.not_isSome_iff_eq_none.mp (by simp [h1])
      refine ⟨invalidIntMsg (pyStrip ⟨(splitFirstDash (pyStrip part).data).2⟩), ?_⟩
      intro tp
      simp only [clausePages]
      rw [if_pos hc, hs, he]
  · rw [if_neg hc] at h
    refine ⟨invalidIntMsg (pyStrip part), ?_⟩
    intro tp
    have hnone : pyInt (pyStrip part) = none :=
      Option.not_isSome_iff_eq_none.mp (by simp [h])
    simp only [clausePages]
    rw [if_neg hc, hnone]

theorem clausePages_ok_of_wf {part : String} (h : wellFormedClause part = true) :
    ∀ tp : Int, clausePages tp part = .ok (clauseContribSpec tp part) := by
  intro tp
  unfold wellFormedClause at h
  by_cases hc : (pyStrip part).data.contains '-'
  · rw [if_pos hc] at h
    rw [Bool.and_eq_true] at h
    obtain ⟨a, hs⟩ := Option.isSome_iff_exists.mp h.1
    obtain ⟨b, he⟩ := Option.isSome_iff_exists.mp h.2
    simp only [clausePages, clauseContribSpec]
    rw [if_pos hc, if_pos hc, hs, he]
    show Except.ok (pyRange (max 0 a) (min (tp - 1) b + 1)) =
      Except.ok (if min (tp - 1) b < max 0 a then []
        else pyRange (max 0 a) (min (tp - 1) b + 1))
    by_cases hlt : min (tp - 1) b < max 0 a
    · rw [if_pos hlt, pyRange_nil (by omega)]
    · rw [if_neg hlt]
  · rw [if_neg hc] at h
    obtain ⟨n, hn⟩ := Option.isSome_iff_exists.mp h
    simp only [clausePages, clauseContribSpec]
    rw [if_neg hc, if_neg hc, hn]
    show (if 0 ≤ n ∧ n < tp then Except.ok [n] else Except.ok ([] : List Int)) =
      Except.ok (if 0 ≤ n ∧ n < tp then [n] else [])
    by_cases h01 : 0 ≤ n ∧ n < tp
    · rw [if_pos h01, if_pos h01]
    · rw [if_neg h01, if_neg h01]

theorem foldl_setUpdate_mem {f : String → List Int} :
    ∀ {parts : List String} (acc : List Int) (x : Int),
      x ∈ parts.foldl (fun a p => setUpdate a (f p)) acc ↔
        x ∈ acc ∨ ∃ p ∈ parts, x ∈ f p := by
  intro parts
  induction parts with
  | nil => intro acc x; simp
  | cons q t ih =>
    intro acc x
    show x ∈ t.foldl _ (setUpdate acc (f q)) ↔ _
    rw [ih, mem_setUpdate]
    simp only [List.mem_cons]
    constructor
    · rintro ((h | h) | ⟨p, hp, hx⟩)
      · exact Or.inl h
      · exact Or.inr ⟨q, Or.inl rfl, h⟩
      · exact Or.inr ⟨p, Or.inr hp, hx⟩
    · rintro (h | ⟨p, (rfl | hp), hx⟩)
      · exact Or.inl (Or.inl h)
      · exact Or.inl (Or.inr hx)
      · exact Or.inr ⟨p, hp, hx⟩

theorem foldl_setUpdate_nodup {f : String → List Int} :
    ∀ {parts : List String} {acc : List Int}, acc.Nodup →
      (parts.foldl (fun a p => setUpdate a (f p)) acc).Nodup := by
  intro parts
  induction parts with
  | nil => intro acc h; exact h
  | cons q t ih => intro acc h; exact ih (nodup_setUpdate h)

theorem foldlM_clauses_ok {tp : Int} :
    ∀ {parts : List String}, (∀ p ∈ parts, wellFormedClause p = true) →
      ∀ acc : List Int,
        parts.foldlM (fun (acc : List Int) part => do
            let c ← clausePages tp part
            pure (setUpdate acc c)) acc =
          .ok (parts.foldl (fun a p => setUpdate a (clauseContribSpec tp p)) acc) := by
  intro parts
  induction parts with
  | nil => intro _ acc; rfl
  | cons q t ih =>
    intro h acc
    have step1 : (q :: t).foldlM (fun (acc : List Int) part => do
        let c ← clausePages tp part
        pure (setUpdate acc c)) acc =
      t.foldlM (fun (acc : List Int) part => do
        let c ← clausePages tp part
        pure (setUpdate acc c)) (setUpdate acc (clauseContribSpec tp q)) := by
      show ((clausePages tp q) >>= fun c => pure (setUpdate acc c)) >>= _ = _
      rw [clausePages_ok_of_wf (h q (by simp)) tp]
      rfl
    rw [step1, ih (fun p hp => h p (List.mem_cons_of_mem _ hp))]
    rfl

theorem foldlM_clauses_err :
    ∀ {parts : List String}, (∃ p ∈ parts, wellFormedClause p = false) →
      ∃ msg, (∀ (tp : Int) (acc : List Int),
          parts.foldlM (fun (acc : List Int) part => do
            let c ← clausePages tp part
            pure (setUpdate acc c)) acc = .error msg) ∧
        ∃ p ∈ parts, wellFormedClause p = false ∧
          ∀ tp : Int, clausePages tp p = .error msg := by
  intro parts
  induction parts with
  | nil =>
    rintro ⟨p, hp, _⟩
    exact absurd hp (List.not_mem_nil p)
  | cons q t ih =>
    intro h
    cases hq : wellFormedClause q with
    | false =>
      obtain ⟨msg, hmsg⟩ := clausePages_err_of_not_wf hq
      refine ⟨msg, ?_, q, by simp, hq, hmsg⟩
      intro tp acc
      show ((clausePages tp q) >>= fun c => pure (setUpdate acc c)) >>= _ = _
      rw [hmsg tp]
      rfl
    | true =>
      have hbad : ∃ p ∈ t, wellFormedClause p = false := by
        obtain ⟨p, hp, hpf⟩ := h
        rcases List.mem_cons.mp hp with rfl | hpt
        · rw [hq] at hpf
          cases hpf
        · exact ⟨p, hpt, hpf⟩
      obtain ⟨msg, hfold, p, hp, hpf, hcp⟩ := ih hbad
      refine ⟨msg, ?_, p, List.mem_cons_of_mem _ hp, hpf, hcp⟩
      intro tp acc
      show ((clausePages tp q) >>= fun c => pure (setUpdate acc c)) >>= _ = _
      rw [clausePages_ok_of_wf hq tp]
      exact hfold tp _

theorem parse_some_ok {tp : Int} {s : String}
    (h : ∀ p ∈ pySplit ',' s, wellFormedClause p = true) :
    parse_page_range (some s) tp =
      .ok (((pySplit ',' s).foldl
        (fun a p => setUpdate a (clauseContribSpec tp p)) []).insertionSort (· ≤ ·)) := by
  simp only [parse_page_range]
  rw [foldlM_clauses_ok h []]
  rfl

theorem parse_some_err {s : String}
    (hbad : ∃ p ∈ pySplit ',' s, wellFormedClause p = false) :
    ∃ msg, (∀ tp : Int, parse_page_range (some s) tp = .error msg) ∧
      ∃ p ∈ pySplit ',' s, wellFormedClause p = false ∧
        ∀ tp : Int, clausePages tp p = .error msg := by
  obtain ⟨msg, hfold, hex⟩ := foldlM_clauses_err hbad
  refine ⟨msg, ?_, hex⟩
  intro tp
  simp only [parse_page_range]
  rw [hfold tp []]
  rfl

theorem extract_full_parse_err {doc : Doc} {filename : String} {et ei lm : Bool}
    {pr : Option String} {msg : String}
    (h : parse_page_range pr (Int.ofNat doc.length) = .error msg) :
    extract_full (.ok doc) filename et ei lm pr = .error msg := by
  simp only [extract_full]
  rw [h]
  rfl

theorem extract_text_only_parse_err {doc : Doc} {filename : String} {lm : Bool}
    {pr : Option String} {msg : String}
    (h : parse_page_range pr (Int.ofNat doc.length) = .error msg) :
    extract_text_only (.ok doc) filename lm pr = .error msg := by
  simp only [extract_text_only]
  rw [h]
  rfl

theorem extract_tables_only_parse_err {doc : Doc} {filename : String}
    {pr : Option String} {msg : String}
    (h : parse_page_range pr (Int.ofNat doc.length) = .error msg) :
    extract_tables_only (.ok doc) filename pr = .error msg := by
  simp only [extract_tables_only]
  rw [h]
  rfl

theorem isEmpty_or_beq_self (l : List (List (Option String))) :
    (l.isEmpty || l.length == 0) = l.isEmpty := by
  cases l <;> simp

theorem tableStep_skip {acc : List TableRecord × List String} {it : Nat × RawTable}
    (h : it.2.cells.isEmpty = true) : tableStep acc it = acc := by
  simp only [tableStep]
  rw [isEmpty_or_beq_self, h]
  rfl

theorem tableStep_keep {acc : List TableRecord × List String} {it : Nat × RawTable}
    (h : it.2.cells.isEmpty = false) :
    tableStep acc it =
      (acc.1 ++ [tableRecOf it], acc.2 ++ [_table_to_markdown it.2.cells]) := by
  have hne : it.2.cells ≠ [] := by
    intro hnil
    rw [hnil] at h
    cases h
  simp only [tableStep]
  rw [isEmpty_or_beq_self, h]
  show (acc.1 ++ [tableRecOf it], if _table_to_markdown it.2.cells = ""
    then acc.2 else acc.2 ++ [_table_to_markdown it.2.cells]) = _
  rw [if_neg (table_to_markdown_ne_empty hne)]

theorem extract_page_tables_eq (tables : List RawTable) :
    _extract_page_tables tables =
      ((tables.enum.filter (fun it => !it.2.cells.isEmpty)).map tableRecOf,
       (tables.enum.filter (fun it => !it.2.cells.isEmpty)).map (fun it =>
         _table_to_markdown it.2.cells)) := by
  have key : ∀ (l : List (Nat × RawTable)) (acc : List TableRecord × List String),
      l.foldl tableStep acc =
      (acc.1 ++ ((l.filter (fun it => !it.2.cells.isEmpty)).map tableRecOf),
       acc.2 ++ ((l.filter (fun it => !it.2.cells.isEmpty)).map (fun it =>
          _table_to_markdown it.2.cells))) := by
    intro l
    induction l with
    | nil => intro acc; simp
    | cons it l ih =>
      intro acc
      rw [List.foldl_cons, List.filter_cons]
      cases hemp : it.2.cells.isEmpty with
      | true =>
        rw [tableStep_skip hemp]
        simpa using ih acc
      | false =>
        rw [tableStep_keep hemp, ih]
        simp
  unfold _extract_page_tables
  rw [key]
  simp

/-! ## Claim theorems -/

/-- C1: for every byte input that cannot be opened as a document (an
`Except.error` outcome of `pymupdf.open`), each of the three entry points
returns — never raises past this boundary — a response with
`success = false`, `total_pages = 0`, all content collections
empty/default, and a non-empty descriptive error string. -/
theorem c1_open_failure_uniform_response :
    ∀ (e filename : String) (et ei lm : Bool) (pr : Option String),
      extract_full (.error e) filename et ei lm pr =
        .ok { success := false, filename := filename, total_pages := 0, pages := [],
              full_text := "", full_text_with_tables := "", scanned_page_count := 0,
              error := some ("Failed to open PDF: " ++ e) } ∧
      extract_text_only (.error e) filename lm pr =
        .ok { success := false, filename := filename, total_pages := 0, text := "",
              scanned_page_count := 0, error := some ("Failed to open PDF: " ++ e) } ∧
      extract_tables_only (.error e) filename pr =
        .ok { success := false, filename := filename, total_pages := 0, tables := [],
              tables_markdown := [], error := some ("Failed to open PDF: " ++ e) } ∧
      ("Failed to open PDF: " ++ e) ≠ "" := by
  intro e filename et ei lm pr
  refine ⟨rfl, rfl, rfl, ?_⟩
  intro hcontra
  have hd := congrArg String.data hcontra
  rw [data_append] at hd
  rcases List.append_eq_nil.mp hd with ⟨h1, _⟩
  exact absurd h1 (by decide)

/-- C2 counterexample: the claim says an absent **or empty** range
expression yields all pages, but the code raises `ValueError` on the empty
string — `parse_page_range(\"\", 3)` errors instead of returning
`[0, 1, 2]`. -/
theorem c2_counterexample :
    parse_page_range (some "") 3 = .error (invalidIntMsg "") ∧
    parse_page_range (some "") 3 ≠ .ok [0, 1, 2] := by decide

/-- C2 (amended): for every `total_pages ≥ 0`, an **absent** (`None`) range
expression resolves to exactly `[0, 1, ..., total_pages - 1]`; an **empty
string** instead fails with `InvalidRangeError` (the `ValueError` of
`int(\"\")`). -/
theorem c2_amended_none_gives_full_range :
    ∀ tp : Int, 0 ≤ tp →
      (∃ res, parse_page_range none tp = .ok res ∧
        List.Sorted (· < ·) res ∧
        (∀ k : Int, k ∈ res ↔ 0 ≤ k ∧ k < tp) ∧
        res.length = tp.toNat) ∧
      parse_page_range (some "") tp = .error (invalidIntMsg "") := by
  intro tp _
  constructor
  · refine ⟨(List.range tp.toNat).map Int.ofNat, rfl, ?_, ?_, by simp⟩
    · exact List.Pairwise.map Int.ofNat (fun a b h => Int.ofNat_lt.mpr h)
        (List.pairwise_lt_range tp.toNat)
    · intro k
      simp only [List.mem_map, List.mem_range, Int.ofNat_eq_natCast]
      constructor
      · rintro ⟨m, hm, rfl⟩
        omega
      · rintro ⟨h1, h2⟩
        exact ⟨k.toNat, by omega, by omega⟩
  · rfl

/-- Witness for C2 (amended) at `total_pages = 3`. -/
theorem c2_amended_witness :
    (∃ res, parse_page_range none 3 = .ok res ∧
      List.Sorted (· < ·) res ∧
      (∀ k : Int, k ∈ res ↔ 0 ≤ k ∧ k < 3) ∧
      res.length = (3 : Int).toNat) ∧
    parse_page_range (some "") 3 = .error (invalidIntMsg "") :=
  c2_amended_none_gives_full_range 3 (by decide)

/-- C3: a range expression containing a clause with a non-numeric token
makes the resolver fail with the `InvalidRangeError` of one of its
offending clauses, and that error propagates out of all three extraction
entry points as a caller-visible fault (`Except.error`), never as an
`ok` response payload. -/
theorem c3_malformed_clause_raises :
    ∀ s : String, (∃ part ∈ pySplit ',' s, wellFormedClause part = false) →
      ∃ msg, (∀ tp : Int, parse_page_range (some s) tp = .error msg) ∧
        (∃ part ∈ pySplit ',' s, wellFormedClause part = false ∧
          ∀ tp : Int, clausePages tp part = .error msg) ∧
        ∀ (doc : Doc) (filename : String) (et ei lm : Bool),
          extract_full (.ok doc) filename et ei lm (some s) = .error msg ∧
          extract_text_only (.ok doc) filename lm (some s) = .error msg ∧
          extract_tables_only (.ok doc) filename (some s) = .error msg ∧
          ∀ response : ExtractionResponse,
            extract_full (.ok doc) filename et ei lm (some s) ≠ .ok response := by
  intro s hbad
  obtain ⟨msg, hparse, hex⟩ := parse_some_err hbad
  refine ⟨msg, hparse, hex, ?_⟩
  intro doc filename et ei lm
  refine ⟨extract_full_parse_err (hparse _), extract_text_only_parse_err (hparse _),
    extract_tables_only_parse_err (hparse _), ?_⟩
  intro response hok
  rw [extract_full_parse_err (hparse _)] at hok
  cases hok

/-- Witness for C3 at the expression `"abc"` and an empty document. -/
theorem c3_witness :
    ∃ msg, parse_page_range (some "abc") 10 = .error msg ∧
      extract_full (.ok ([] : Doc)) "f.pdf" true false true (some "abc") = .error msg := by
  obtain ⟨msg, hparse, _, hprop⟩ := c3_malformed_clause_raises "abc" (by decide)
  exact ⟨msg, hparse 10, (hprop [] "f.pdf" true false true).1⟩

/-- C4: for a well-formed range expression, the resolver returns the
sorted, duplicate-free union of the per-clause contributions, where a
`start-end` clause contributes the clamped inclusive range (possibly
empty, without error) and a single integer contributes itself iff it lies
in `[0, total_pages)` (`clauseContribSpec`). -/
theorem c4_wellformed_union_semantics :
    ∀ (tp : Int) (s : String),
      (∀ part ∈ pySplit ',' s, wellFormedClause part = true) →
      ∃ res, parse_page_range (some s) tp = .ok res ∧
        List.Sorted (· ≤ ·) res ∧ res.Nodup ∧
        ∀ k : Int, k ∈ res ↔ ∃ part ∈ pySplit ',' s, k ∈ clauseContribSpec tp part := by
  intro tp s h
  refine ⟨_, parse_some_ok h, ?_, ?_, ?_⟩
  · exact List.sorted_insertionSort _ _
  · exact ((List.perm_insertionSort _ _).nodup_iff).mpr
      (foldl_setUpdate_nodup List.nodup_nil)
  · intro k
    rw [(List.perm_insertionSort _ _).mem_iff, foldl_setUpdate_mem]
    simp

/-- Witness for C4 at `"0-2,5,7-9"` with 10 pages. -/
theorem c4_witness :
    ∃ res, parse_page_range (some "0-2,5,7-9") 10 = .ok res ∧
      List.Sorted (· ≤ ·) res ∧ res.Nodup ∧
      ∀ k : Int, k ∈ res ↔ ∃ part ∈ pySplit ',' "0-2,5,7-9",
        k ∈ clauseContribSpec 10 part :=
  c4_wellformed_union_semantics 10 "0-2,5,7-9" (by decide)

/-- C5: the scanned-page classifier returns true iff the page has at least
one image AND its text, stripped of surrounding whitespace, is shorter
than 20 characters; a 19-character text with one image is scanned, a
20-character text is not, and a page with no images is never scanned. -/
theorem c5_scanned_classifier :
    ∀ (p : PageData) (text : String),
      (_detect_scanned_page p text = true ↔
        0 < p.images.length ∧ (pyStrip text).length < 20) ∧
      (∀ t : String, _detect_scanned_page { p with images := [] } t = false) ∧
      _detect_scanned_page noImagePage "" = false ∧
      _detect_scanned_page oneImagePage "" = true ∧
      _detect_scanned_page oneImagePage ⟨List.replicate 19 'x'⟩ = true ∧
      _detect_scanned_page oneImagePage ⟨List.replicate 20 'x'⟩ = false := by
  intro p text
  refine ⟨?_, ?_, by decide, by decide, by decide, by decide⟩
  · simp [_detect_scanned_page]
  · intro t
    simp [_detect_scanned_page]

/-- C6: the markdown rendering of a non-empty grid decomposes, line by
line, into a header row, one `---` separator cell per column, then the
remaining rows (`mdLines`), every rendered row being right-padded to the
maximum row length; cell stringification maps `None` to the empty string,
replaces embedded newlines by spaces and strips surrounding whitespace;
and `[[\"a\",\"b\"],[\"c\"]]` renders as
`| a | b |` / `| --- | --- |` / `| c |  |`. -/
theorem c6_markdown_rendering :
    ∀ g : List (List (Option String)), g ≠ [] →
      splitOnChar '\n' (_table_to_markdown g).data = (mdLines g).map String.data ∧
      (∀ r ∈ paddedRows g, r.length = maxRowLen g) ∧
      cleanCell none = "" ∧
      cleanCell (some " a\nb ") = "a b" ∧
      _table_to_markdown [[some "a", some "b"], [some "c"]] =
        "| a | b |\n| --- | --- |\n| c |  |" := by
  intro g hg
  refine ⟨splitOnChar_markdown hg, ?_, by decide, by decide, by decide⟩
  intro r hr
  obtain ⟨cr, hcr, rfl⟩ := List.mem_map.mp hr
  rw [length_padRow (length_le_maxRowLen hcr), maxRowLen_cleanedRows]

/-- Witness for C6 at the one-cell grid `[[\"a\"]]`. -/
theorem c6_witness :
    splitOnChar '\n' (_table_to_markdown [[some "a"]]).data =
      (mdLines [[some "a"]]).map String.data :=
  (c6_markdown_rendering [[some "a"]] (by decide)).1

/-- C7 counterexample: an empty grid produces **no** record at all (not a
`rows = 0, cols = 0` record), and a grid whose first row is empty produces
a record with `rows = 1` **and** an emitted markdown string `"|  |\n|  |"`
— both contradicting the claim. -/
theorem c7_counterexample :
    _extract_page_tables [{ bbox := [], cells := [] }] = ([], []) ∧
    (_extract_page_tables [{ bbox := [], cells := [[]] }]).1.map TableRecord.rows
      = [1] ∧
    (_extract_page_tables [{ bbox := [], cells := [[]] }]).2 = ["|  |\n|  |"] := by
  decide

/-- C7 (amended): an empty grid is skipped entirely — no `TableRecord` and
no markdown; a non-empty grid whose first row is empty yields a record
with `rows` = the number of rows, `cols = 0`, and a (non-empty) markdown
string IS emitted for it. -/
theorem c7_amended_empty_grid_behavior :
    ∀ (bbox : List Rat) (g : List (List (Option String))),
      _extract_page_tables [{ bbox := bbox, cells := [] }] = ([], []) ∧
      (g ≠ [] → g.headD [] = [] →
        ∃ md, md ≠ "" ∧
          _extract_page_tables [{ bbox := bbox, cells := g }] =
            ([{ table_index := 0, bbox := bbox, rows := g.length, cols := 0,
                data := g, page_number := none }], [md])) := by
  intro bbox g
  constructor
  · rfl
  · intro hne hhead
    refine ⟨_table_to_markdown g, table_to_markdown_ne_empty hne, ?_⟩
    have hemp : ({ bbox := bbox, cells := g } : RawTable).cells.isEmpty = false := by
      show g.isEmpty = false
      cases g with
      | nil => exact absurd rfl hne
      | cons r rs => rfl
    have hstep : _extract_page_tables [{ bbox := bbox, cells := g }] =
        tableStep ([], []) (0, { bbox := bbox, cells := g }) := rfl
    rw [hstep, tableStep_keep hemp]
    simp only [List.nil_append, tableRecOf]
    rw [show ({ bbox := bbox, cells := g } : RawTable).cells.headD [] = [] from hhead]
    rfl

/-- Witness for C7 (amended) at the grid `[[]]`. -/
theorem c7_amended_witness :
    ∃ md, md ≠ "" ∧
      _extract_page_tables [{ bbox := [], cells := [[]] }] =
        ([{ table_index := 0, bbox := [], rows := 1, cols := 0,
            data := [[]], page_number := none }], [md]) :=
  (c7_amended_empty_grid_behavior [] [[]]).2 (by decide) rfl

/-- C8 counterexample: for the ragged grid `[[\"a\"],[\"b\",\"c\"]]` the
record has `cols = 1` (first-row length) while the padded shape of its
`data` has 2 columns — the derived count is **not** consistent with the
shape after padding. -/
theorem c8_counterexample :
    (_extract_page_tables
        [{ bbox := [], cells := [[some "a"], [some "b", some "c"]] }]).1.map
      (fun r => (r.rows, r.cols, maxRowLen r.data)) = [(2, 1, 2)] ∧
    ¬ ∀ r ∈ (_extract_page_tables
        [{ bbox := [], cells := [[some "a"], [some "b", some "c"]] }]).1,
      r.cols = maxRowLen r.data := by
  decide

/-- C8 (amended): every produced record has `rows` = the number of rows of
the raw grid and `cols` = the length of the grid's first row before
padding (the grid is stored unpadded in `data`); these counts agree with
the padded shape of `data` exactly when the first row is a longest row. -/
theorem c8_amended_record_shape :
    ∀ tables : List RawTable, ∀ r ∈ (_extract_page_tables tables).1,
      r.rows = r.data.length ∧
      r.cols = (r.data.headD []).length ∧
      r.data ≠ [] ∧
      ((∀ row ∈ r.data, row.length ≤ r.cols) → r.cols = maxRowLen r.data) := by
  intro tables r hr
  rw [extract_page_tables_eq] at hr
  obtain ⟨it, hit, rfl⟩ := List.mem_map.mp hr
  have hp := List.of_mem_filter hit
  have hne : it.2.cells ≠ [] := by
    intro h
    rw [h] at hp
    cases hp
  refine ⟨rfl, rfl, hne, ?_⟩
  intro hall
  exact (maxRowLen_eq_head hne hall).symm

/-- Witness for C8 (amended) at the rectangular grid `[[\"a\"]]`. -/
theorem c8_witness :
    ∃ r ∈ (_extract_page_tables [{ bbox := [], cells := [[some "a"]] }]).1,
      r.rows = r.data.length ∧ r.cols = (r.data.headD []).length ∧
      r.cols = maxRowLen r.data := by
  obtain ⟨h1, h2, _, h4⟩ := c8_amended_record_shape
    [{ bbox := [], cells := [[some "a"]] }]
    { table_index := 0, bbox := [], rows := 1, cols := 1,
      data := [[some "a"]], page_number := none } (by decide)
  exact ⟨_, by decide, h1, h2, h4 (by decide)⟩

/-- C10: for every page, table extraction produces exactly as many
markdown strings as table records — empty grids are skipped before a
record is built, and the markdown rendered from a non-empty grid is never
the empty string. -/
theorem c10_records_markdown_aligned :
    ∀ tables : List RawTable,
      (_extract_page_tables tables).1.length = (_extract_page_tables tables).2.length ∧
      ∀ md ∈ (_extract_page_tables tables).2, md ≠ "" := by
  intro tables
  rw [extract_page_tables_eq]
  constructor
  · simp
  · intro md hmd
    simp only at hmd
    obtain ⟨it, hit, rfl⟩ := List.mem_map.mp hmd
    have hp := List.of_mem_filter hit
    refine table_to_markdown_ne_empty ?_
    intro h
    rw [h] at hp
    cases hp

/-- Witness for C10 at a page with one non-empty table. -/
theorem c10_witness :
    (_extract_page_tables [{ bbox := [], cells := [[some "a"]] }]).1.length =
      (_extract_page_tables [{ bbox := [], cells := [[some "a"]] }]).2.length ∧
    ("| a |\n| --- |" : String) ≠ "" := by
  refine ⟨(c10_records_markdown_aligned _).1, ?_⟩
  exact (c10_records_markdown_aligned [{ bbox := [], cells := [[some "a"]] }]).2
    "| a |\n| --- |" (by decide)

/-- C9 counterexample: the grid `[[\"a | b\"]]` is rectangular and its
single stringified cell contains no newline, yet re-parsing the rendered
markdown recovers `[[\"a\", \"b\"]]`, not the original cell — a cell
containing a pipe breaks the round trip the claim states. -/
theorem c9_counterexample :
    ('\n' ∉ "a | b".data) ∧
    (∀ row ∈ [[some "a | b"]], List.length row = 1) ∧
    parseMarkdownCells (_table_to_markdown [[some "a | b"]]) = [["a", "b"]] ∧
    parseMarkdownCells (_table_to_markdown [[some "a | b"]]) ≠ [["a | b"]] := by
  decide

/-- C9 (amended): for every non-empty rectangular grid with at least one
column whose cleaned cell values contain no pipe character, re-parsing the
pipe-delimited cells of each non-separator line of the rendered markdown
recovers exactly the cleaned (stringified, newline-replaced, stripped)
cell values. -/
theorem c9_amended_round_trip :
    ∀ g : List (List (Option String)),
      g ≠ [] →
      (∀ row ∈ g, row.length = (g.headD []).length) →
      (g.headD []).length ≠ 0 →
      (∀ row ∈ g, ∀ cell ∈ row, '|' ∉ (cleanCell cell).data) →
      parseMarkdownCells (_table_to_markdown g) = cleanedRows g := by
  intro g hg hrect hcols hpipe
  have hclean_len : ∀ cr ∈ cleanedRows g, cr.length = (g.headD []).length := by
    intro cr hcr
    obtain ⟨row, hrow, rfl⟩ := List.mem_map.mp hcr
    rw [List.length_map]
    exact hrect row hrow
  have hclean_ne : cleanedRows g ≠ [] := by
    cases g with
    | nil => exact absurd rfl hg
    | cons r rs => simp [cleanedRows]
  have hmax : maxRowLen (cleanedRows g) = (g.headD []).length :=
    maxRowLen_eq_of_all hclean_ne hclean_len
  have hpadfix : ∀ cr ∈ cleanedRows g,
      padRow (maxRowLen (cleanedRows g)) cr = cr := by
    intro cr hcr
    exact padRow_of_length_eq (by rw [hclean_len cr hcr, hmax])
  have hpad : paddedRows g = cleanedRows g := by
    show (cleanedRows g).map (padRow (maxRowLen (cleanedRows g))) = cleanedRows g
    rw [List.map_congr_left hpadfix]
    simp
  have hper : ∀ cr ∈ cleanedRows g,
      parseLineCells (⟨(renderRow cr).data⟩ : String) = cr := by
    intro cr hcr
    rw [string_eta]
    refine parseLineCells_renderRow ?_ ?_
    · intro hnil
      have hl := hclean_len cr hcr
      rw [hnil] at hl
      exact hcols hl.symm
    · intro x hx
      obtain ⟨row, hrow, hcrr⟩ := List.mem_map.mp hcr
      rw [← hcrr] at hx
      obtain ⟨cell, hcell, rfl⟩ := List.mem_map.mp hx
      exact hpipe row hrow cell hcell
  have hml : mdLines g = renderRow ((cleanedRows g).headD []) ::
      renderRow (List.replicate (maxRowLen (cleanedRows g)) "---") ::
      ((cleanedRows g).drop 1).map renderRow := by
    unfold mdLines
    rw [hpad]
  unfold parseMarkdownCells
  rw [splitOnChar_markdown hg, hml]
  cases hG : cleanedRows g with
  | nil => exact absurd hG hclean_ne
  | cons cr0 crt =>
    show ((renderRow cr0).data ::
        (crt.map renderRow).map String.data).map
        (fun l => parseLineCells (⟨l⟩ : String)) = cr0 :: crt
    rw [List.map_cons, List.map_map, List.map_map]
    rw [hper cr0 (by rw [hG]; exact List.mem_cons_self _ _)]
    congr 1
    have hcomp : ∀ r ∈ crt,
        (((fun l => parseLineCells (⟨l⟩ : String)) ∘ String.data) ∘ renderRow) r
          = r := by
      intro r hr
      exact hper r (by rw [hG]; exact List.mem_cons_of_mem _ hr)
    rw [List.map_congr_left hcomp]
    simp

/-- Witness for C9 (amended) at the 2×2 grid
`[[\"a\",\"b\"],[\"c\",None]]`. -/
theorem c9_amended_witness :
    parseMarkdownCells (_table_to_markdown
      [[some "a", some "b"], [some "c", none]]) = [["a", "b"], ["c", ""]] := by
  rw [c9_amended_round_trip [[some "a", some "b"], [some "c", none]]
    (by decide) (by decide) (by decide) (by decide)]
  decide
